import Mathlib

/-!
Verification of the TrendWise trend-to-article pipeline
(`backend/src/services/trendService.js`, `openaiService.js`, `articleService.js`
and `backend/src/routes/trends.js`), shallowly embedded in Lean.

JavaScript numbers are modelled as exact rationals (`ℚ`); all scores involved
are small integer-valued quantities for which double arithmetic is exact, and
the similarity ratio `(maxLen - dist) / maxLen` compared against `0.8` is
modelled by exact rational arithmetic.  JS strings are modelled as Lean
`String`s; `toLowerCase`/`trim` are modelled on their ASCII behaviour, which
covers every string manipulated by the properties below.
-/

namespace TrendWise

/-- Characters treated as whitespace by JavaScript `trim()` and by the `\s`
regex class, restricted to ASCII. -/
def isJsWhitespace (c : Char) : Bool :=
  c == ' ' || c == '\t' || c == '\n' || c == '\r' || c == '\x0b' || c == '\x0c'

/-- Model of JS `String.prototype.trim()`: strip leading and trailing
whitespace.  Note that JS `trim` accepts no argument; a call such as
`s.trim('-')` ignores the argument and still strips whitespace only. -/
def jsTrim (s : String) : String :=
  (((s.toList.dropWhile isJsWhitespace).reverse.dropWhile isJsWhitespace).reverse).asString

/-- Model of JS `String.prototype.toLowerCase()` (ASCII range). -/
def jsToLowerCase (s : String) : String :=
  (s.toList.map Char.toLower).asString

/-- Model of JS `String.prototype.startsWith(prefix)`. -/
def jsStartsWith (s p : String) : Bool :=
  p.toList.isPrefixOf s.toList

/-- Model of JS `String.prototype.substring(n)` and similar prefix drops. -/
def jsDrop (s : String) (n : Nat) : String :=
  (s.toList.drop n).asString

/-- Worker for `jsSplit`.  The fuel argument only drives structural recursion;
each step consumes at least one character, so `fuel = cs.length` always
suffices and the fuel-exhausted completion (returning the rest as the final
segment) is never reached. -/
def jsSplitGo (sep : List Char) : Nat → List Char → List Char → List String
  | _, [], acc => [acc.reverse.asString]
  | 0, cs, acc => [(acc.reverse ++ cs).asString]
  | fuel + 1, c :: cs, acc =>
    if sep.isPrefixOf (c :: cs) then
      acc.reverse.asString :: jsSplitGo sep fuel (List.drop sep.length (c :: cs)) []
    else
      jsSplitGo sep fuel cs (c :: acc)

/-- Model of JS `String.prototype.split(separator)` for a non-empty
separator string: scan left to right, emitting a segment at each
(non-overlapping) occurrence of the separator. -/
def jsSplit (s sep : String) : List String :=
  jsSplitGo sep.toList s.toList.length s.toList []

/-- Worker for `setDedup`, carrying the set of already-emitted elements. -/
def setDedupGo : List String → List String → List String
  | [], _ => []
  | x :: xs, seen =>
    if seen.contains x then setDedupGo xs seen
    else x :: setDedupGo xs (seen ++ [x])

/-- Model of `[...new Set(xs)]`: remove duplicates keeping the first
occurrence of each element, in insertion order. -/
def setDedup (l : List String) : List String :=
  setDedupGo l []

/-- A normalized trend candidate as produced by the source adapters in
`trendService.js` (fields irrelevant to the verified properties, such as the
fetch timestamp and per-source metadata bags, are omitted). -/
structure Trend where
  keyword : String
  source : String
  category : String
  /-- 1-based rank position; only the Twitter adapter sets it. -/
  position : Nat
  trendScore : ℚ
deriving DecidableEq, Repr

/-- Fuelled form of the dynamic-programming matrix built by
`levenshteinDistance(str1, str2)` in `trendService.js`.  `levMF s1 s2 fuel i j`
computes `matrix[i][j]`, the edit distance between the first `i` characters of
`str2` and the first `j` characters of `str1`; the extra `fuel` argument only
drives structural recursion and does not affect the value whenever
`i + j ≤ fuel` (`levMF_eq`). -/
def levMF (s1 s2 : List Char) : Nat → Nat → Nat → Nat
  | _, 0, j => j
  | _, i + 1, 0 => i + 1
  | 0, _ + 1, _ + 1 => 0
  | fuel + 1, i + 1, j + 1 =>
    if s2.getD i 'a' = s1.getD j 'a' then
      levMF s1 s2 fuel i j
    else
      min (levMF s1 s2 fuel i j + 1)
        (min (levMF s1 s2 fuel (i + 1) j + 1) (levMF s1 s2 fuel i (j + 1) + 1))

/-- Entry `matrix[i][j]` of the `levenshteinDistance` matrix: the source
initialises `matrix[i][0] = i` and `matrix[0][j] = j` and fills `matrix[i][j]`
from the diagonal, left and upper neighbours. -/
def levM (s1 s2 : List Char) (i j : Nat) : Nat :=
  levMF s1 s2 (i + j) i j

/-- `levenshteinDistance(str1, str2)` returns `matrix[str2.length][str1.length]`. -/
def levenshteinDistance (str1 str2 : String) : Nat :=
  levM str1.toList str2.toList str2.toList.length str1.toList.length

/-- `calculateSimilarity(str1, str2)` from `trendService.js`: similarity
`(longer.length - editDistance) / longer.length`, and `1.0` when both strings
are empty. -/
def calculateSimilarity (str1 str2 : String) : ℚ :=
  let longer := if str2.length < str1.length then str1 else str2
  let shorter := if str2.length < str1.length then str2 else str1
  if longer.length = 0 then 1
  else ((longer.length : ℚ) - (levenshteinDistance longer shorter : ℚ)) / (longer.length : ℚ)

/-- The normalized keyword used by deduplication:
`trend.keyword.toLowerCase().trim()`. -/
def normalizedKeyword (t : Trend) : String :=
  jsTrim (jsToLowerCase t.keyword)

/-- Worker loop of `deduplicateTrends`: `seen` is the set of normalized
keywords of the already-accepted candidates; a candidate whose normalized
keyword has similarity `> 0.8` with any of them is dropped. -/
def dedupGo : List Trend → List String → List Trend
  | [], _ => []
  | t :: rest, seen =>
    let nk := normalizedKeyword t
    if seen.any (fun s => decide ((4 : ℚ) / 5 < calculateSimilarity nk s)) then
      dedupGo rest seen
    else
      t :: dedupGo rest (seen ++ [nk])

/-- `deduplicateTrends(trends)` from `trendService.js`. -/
def deduplicateTrends (trends : List Trend) : List Trend :=
  dedupGo trends []

/-- Body of the `page.evaluate` callback in `fetchTwitterTrends`
(`trendService.js`): given the text contents of the scraped
`.trend-card__list li` elements in order, keep the first 20, drop blank or
very short keywords, and score by rank decay `Math.max(100 - index * 5, 10)`
with the stored 1-based `position = index + 1`. -/
def fetchTwitterTrends (elements : List String) : List Trend :=
  elements.enum.filterMap fun p =>
    if p.1 < 20 then
      let keyword := jsTrim p.2
      if keyword ≠ "" ∧ 2 < keyword.length then
        some ⟨keyword, "twitter", "general", p.1 + 1,
          max ((100 : ℚ) - (p.1 : ℚ) * 5) 10⟩
      else none
    else none

/-- Score formula stated by the specification for the social-trends adapter,
written from the spec's words for comparison with the source:
`max(100 - 5 × rank_position, 10)` with `rank_position` 1-based. -/
def specTwitterScore (position : Nat) : ℚ :=
  max ((100 : ℚ) - 5 * (position : ℚ)) 10

/-- Descending-score comparison used by
`sort((a, b) => b.trendScore - a.trendScore)` in `getAllTrends`. -/
def scoreGe (a b : Trend) : Prop :=
  b.trendScore ≤ a.trendScore

instance : DecidableRel scoreGe := fun _ _ => inferInstanceAs (Decidable (_ ≤ _))

instance : IsTotal Trend scoreGe :=
  ⟨fun a b => le_total b.trendScore a.trendScore⟩

instance : IsTrans Trend scoreGe :=
  ⟨fun _ _ _ hab hbc => le_trans hbc hab⟩

/-- Contribution of one source adapter to `allTrends` in `getAllTrends`:
a disabled adapter is not called, and a failing adapter's exception is caught
by the per-adapter `try`/`catch`, contributing zero candidates. -/
def adapterContribution (enabled : Bool) (result : Except String (List Trend)) : List Trend :=
  if enabled then
    match result with
    | Except.ok trends => trends
    | Except.error _ => []
  else []

/-- Replace a failed adapter result with an empty successful one. -/
def recoverEmpty (result : Except String (List Trend)) : Except String (List Trend) :=
  match result with
  | Except.ok trends => Except.ok trends
  | Except.error _ => Except.ok []

/-- `getAllTrends` from `trendService.js`, with each adapter's outcome passed
in as an `Except`.  Each fetch is wrapped in its own `try`/`catch` whose
handler only logs, and the remaining body (dedupe, sort, slice) is pure and
total, so the surrounding `try`'s rethrowing `catch` is never reached: the
function always produces a value. -/
def getAllTrends (includeGoogle includeTwitter includeReddit : Bool)
    (googleRes twitterRes redditRes : Except String (List Trend))
    (limit : Nat) : Except String (List Trend) :=
  let allTrends :=
    adapterContribution includeGoogle googleRes ++
      adapterContribution includeTwitter twitterRes ++
        adapterContribution includeReddit redditRes
  let uniqueTrends := deduplicateTrends allTrends
  let sortedTrends := (List.insertionSort scoreGe uniqueTrends).take limit
  Except.ok sortedTrends

/-- Worker for `replaceWsRuns`; the flag records whether the previous
character belonged to a whitespace run already replaced by a hyphen. -/
def replaceWsRunsGo : Bool → List Char → List Char
  | _, [] => []
  | inRun, c :: cs =>
    if isJsWhitespace c then
      if inRun then replaceWsRunsGo true cs
      else '-' :: replaceWsRunsGo true cs
    else c :: replaceWsRunsGo false cs

/-- Replace every run of JS whitespace by a single hyphen
(the `.replace(/\s+/g, '-')` step of `generateSlug`). -/
def replaceWsRuns (l : List Char) : List Char :=
  replaceWsRunsGo false l

/-- Worker for `collapseHyphens`; the flag records whether the previous
character belonged to a hyphen run already emitted as a single hyphen. -/
def collapseHyphensGo : Bool → List Char → List Char
  | _, [] => []
  | inRun, c :: cs =>
    if c = '-' then
      if inRun then collapseHyphensGo true cs
      else '-' :: collapseHyphensGo true cs
    else c :: collapseHyphensGo false cs

/-- Collapse every run of hyphens to a single hyphen
(the hyphen-run regex replace step of `generateSlug`). -/
def collapseHyphens (l : List Char) : List Char :=
  collapseHyphensGo false l

/-- Characters kept by the `.replace(/[^a-z0-9\s-]/g, '')` step. -/
def isSlugKeep (c : Char) : Bool :=
  ('a' ≤ c && c ≤ 'z') || ('0' ≤ c && c ≤ '9') || isJsWhitespace c || c == '-'

/-- `generateSlug(title)` from `openaiService.js`: lowercase, strip characters
outside `[a-z0-9\s-]`, turn whitespace runs into single hyphens, collapse
hyphen runs, then call `.trim('-')` — which in JavaScript ignores its argument
and strips *whitespace* (of which none remains), not hyphens. -/
def generateSlug (title : String) : String :=
  jsTrim
    (collapseHyphens
      (replaceWsRuns
        ((jsToLowerCase title).toList.filter isSlugKeep))).asString

/-! ### Properties of the Levenshtein matrix -/

theorem levMF_eq (s1 s2 : List Char) :
    ∀ fuel fuel' i j, i + j ≤ fuel → i + j ≤ fuel' →
      levMF s1 s2 fuel i j = levMF s1 s2 fuel' i j := by
  intro fuel
  induction fuel with
  | zero =>
    intro fuel' i j hij _
    have hi : i = 0 := by omega
    subst hi
    cases fuel' <;> simp [levMF]
  | succ f ih =>
    intro fuel' i j hij hij'
    match i, j with
    | 0, j => cases fuel' <;> simp [levMF]
    | i + 1, 0 => cases fuel' <;> simp [levMF]
    | i + 1, j + 1 =>
      obtain ⟨f', rfl⟩ : ∃ f', fuel' = f' + 1 := ⟨fuel' - 1, by omega⟩
      simp only [levMF]
      rw [ih f' i j (by omega) (by omega),
        ih f' (i + 1) j (by omega) (by omega),
        ih f' i (j + 1) (by omega) (by omega)]

theorem levM_zero_left (s1 s2 : List Char) (j : Nat) : levM s1 s2 0 j = j := by
  simp [levM, levMF]

theorem levM_succ_zero (s1 s2 : List Char) (i : Nat) : levM s1 s2 (i + 1) 0 = i + 1 := by
  simp [levM, levMF]

theorem levM_succ_succ (s1 s2 : List Char) (i j : Nat) :
    levM s1 s2 (i + 1) (j + 1) =
      if s2.getD i 'a' = s1.getD j 'a' then levM s1 s2 i j
      else
        min (levM s1 s2 i j + 1)
          (min (levM s1 s2 (i + 1) j + 1) (levM s1 s2 i (j + 1) + 1)) := by
  simp only [levM]
  have hshape : (i + 1) + (j + 1) = ((i + 1) + j) + 1 := rfl
  rw [hshape]
  simp only [levMF]
  rw [levMF_eq s1 s2 ((i + 1) + j) (i + j) i j (by omega) (by omega),
    levMF_eq s1 s2 ((i + 1) + j) (i + (j + 1)) i (j + 1) (by omega) (by omega)]

theorem levM_comm_aux (s1 s2 : List Char) :
    ∀ n i j, i + j ≤ n → levM s1 s2 i j = levM s2 s1 j i := by
  intro n
  induction n with
  | zero =>
    intro i j h
    have hi : i = 0 := by omega
    have hj : j = 0 := by omega
    subst hi; subst hj
    rw [levM_zero_left, levM_zero_left]
  | succ n ih =>
    intro i j h
    match i, j with
    | 0, 0 => rw [levM_zero_left, levM_zero_left]
    | 0, j + 1 => rw [levM_zero_left, levM_succ_zero]
    | i + 1, 0 => rw [levM_zero_left, levM_succ_zero]
    | i + 1, j + 1 =>
      rw [levM_succ_succ, levM_succ_succ,
        ih i j (by omega), ih (i + 1) j (by omega), ih i (j + 1) (by omega)]
      by_cases hc : s2.getD i 'a' = s1.getD j 'a'
      · rw [if_pos hc, if_pos hc.symm]
      · rw [if_neg hc, if_neg (fun hc' => hc hc'.symm),
          Nat.min_comm (levM s2 s1 j (i + 1) + 1) (levM s2 s1 (j + 1) i + 1)]

theorem levM_comm (s1 s2 : List Char) (i j : Nat) : levM s1 s2 i j = levM s2 s1 j i :=
  levM_comm_aux s1 s2 (i + j) i j le_rfl

theorem levM_le_max (s1 s2 : List Char) :
    ∀ n i j, i + j ≤ n → levM s1 s2 i j ≤ max i j := by
  intro n
  induction n with
  | zero =>
    intro i j h
    have hi : i = 0 := by omega
    have hj : j = 0 := by omega
    subst hi; subst hj
    rw [levM_zero_left]
    exact Nat.zero_le _
  | succ n ih =>
    intro i j h
    match i, j with
    | 0, j => rw [levM_zero_left]; exact Nat.le_max_right _ _
    | i + 1, 0 => rw [levM_succ_zero]; exact Nat.le_max_left _ _
    | i + 1, j + 1 =>
      rw [levM_succ_succ]
      have h1 := ih i j (by omega)
      have h2 := ih (i + 1) j (by omega)
      have h3 := ih i (j + 1) (by omega)
      by_cases hc : s2.getD i 'a' = s1.getD j 'a'
      · rw [if_pos hc]
        exact h1.trans (by omega)
      · rw [if_neg hc]
        refine (Nat.min_le_left _ _).trans ?_
        omega

theorem levM_self (s : List Char) : ∀ i, levM s s i i = 0 := by
  intro i
  induction i with
  | zero => rw [levM_zero_left]
  | succ i ih => rw [levM_succ_succ, if_pos rfl, ih]

/-! ### Properties of `calculateSimilarity` -/

theorem levenshteinDistance_comm (a b : String) :
    levenshteinDistance a b = levenshteinDistance b a :=
  levM_comm a.toList b.toList b.toList.length a.toList.length

theorem levenshteinDistance_le_max (a b : String) :
    levenshteinDistance a b ≤ max a.length b.length := by
  have h := levM_le_max a.toList b.toList
    (b.toList.length + a.toList.length) b.toList.length a.toList.length le_rfl
  have hla : a.length = a.toList.length := rfl
  have hlb : b.length = b.toList.length := rfl
  rw [hla, hlb]
  exact h.trans (le_of_eq (Nat.max_comm _ _))

theorem levenshteinDistance_self (a : String) : levenshteinDistance a a = 0 :=
  levM_self a.toList a.toList.length

theorem calculateSimilarity_comm (a b : String) :
    calculateSimilarity a b = calculateSimilarity b a := by
  simp only [calculateSimilarity]
  rcases lt_trichotomy a.length b.length with h | h | h
  · have h1 : ¬ b.length < a.length := by omega
    simp only [if_pos h, if_neg h1]
  · have h1 : ¬ b.length < a.length := by omega
    have h2 : ¬ a.length < b.length := by omega
    simp only [if_neg h1, if_neg h2]
    rw [levenshteinDistance_comm b a, h]
  · have h2 : ¬ a.length < b.length := by omega
    simp only [if_pos h, if_neg h2]

theorem calculateSimilarity_nonneg (a b : String) : 0 ≤ calculateSimilarity a b := by
  simp only [calculateSimilarity]
  by_cases hab : b.length < a.length
  · simp only [if_pos hab]
    by_cases h0 : a.length = 0
    · simp only [if_pos h0]
      norm_num
    · simp only [if_neg h0]
      have hn : (0 : ℚ) < (a.length : ℚ) := by
        exact_mod_cast Nat.pos_of_ne_zero h0
      apply div_nonneg _ hn.le
      have hd : levenshteinDistance a b ≤ a.length :=
        (levenshteinDistance_le_max a b).trans (by omega)
      have hd' : (levenshteinDistance a b : ℚ) ≤ (a.length : ℚ) := by exact_mod_cast hd
      linarith
  · simp only [if_neg hab]
    by_cases h0 : b.length = 0
    · simp only [if_pos h0]
      norm_num
    · simp only [if_neg h0]
      have hn : (0 : ℚ) < (b.length : ℚ) := by
        exact_mod_cast Nat.pos_of_ne_zero h0
      apply div_nonneg _ hn.le
      have hd : levenshteinDistance b a ≤ b.length :=
        (levenshteinDistance_le_max b a).trans (by omega)
      have hd' : (levenshteinDistance b a : ℚ) ≤ (b.length : ℚ) := by exact_mod_cast hd
      linarith

theorem calculateSimilarity_le_one (a b : String) : calculateSimilarity a b ≤ 1 := by
  simp only [calculateSimilarity]
  by_cases hab : b.length < a.length
  · simp only [if_pos hab]
    by_cases h0 : a.length = 0
    · simp only [if_pos h0]
      exact le_rfl
    · simp only [if_neg h0]
      have hn : (0 : ℚ) < (a.length : ℚ) := by
        exact_mod_cast Nat.pos_of_ne_zero h0
      rw [div_le_one hn]
      have hd' : (0 : ℚ) ≤ (levenshteinDistance a b : ℚ) := by positivity
      linarith
  · simp only [if_neg hab]
    by_cases h0 : b.length = 0
    · simp only [if_pos h0]
      exact le_rfl
    · simp only [if_neg h0]
      have hn : (0 : ℚ) < (b.length : ℚ) := by
        exact_mod_cast Nat.pos_of_ne_zero h0
      rw [div_le_one hn]
      have hd' : (0 : ℚ) ≤ (levenshteinDistance b a : ℚ) := by positivity
      linarith

theorem calculateSimilarity_self (a : String) : calculateSimilarity a a = 1 := by
  simp only [calculateSimilarity]
  simp only [if_neg (lt_irrefl a.length)]
  by_cases h0 : a.length = 0
  · simp only [if_pos h0]
  · simp only [if_neg h0, levenshteinDistance_self]
    push_cast
    rw [sub_zero, div_self (by exact_mod_cast h0)]

/-- C10: `calculateSimilarity` is symmetric, its result always lies in the
closed interval `[0, 1]`, and two equal strings (in particular two empty
strings) yield exactly `1`. -/
theorem calculateSimilarity_symm_bounds (a b : String) :
    calculateSimilarity a b = calculateSimilarity b a ∧
    0 ≤ calculateSimilarity a b ∧ calculateSimilarity a b ≤ 1 ∧
    (a = b → calculateSimilarity a b = 1) :=
  ⟨calculateSimilarity_comm a b, calculateSimilarity_nonneg a b,
    calculateSimilarity_le_one a b,
    fun h => h ▸ calculateSimilarity_self a⟩

/-- Witness for C10 at concrete inputs: the equal-strings hypothesis is
discharged at `"" = ""`. -/
theorem calculateSimilarity_symm_bounds_witness :
    calculateSimilarity "" "" = 1 ∧ 0 ≤ calculateSimilarity "trend" "trends" :=
  ⟨(calculateSimilarity_symm_bounds "" "").2.2.2 rfl,
    (calculateSimilarity_symm_bounds "trend" "trends").2.1⟩

/-! ### Properties of deduplication -/

theorem dedupGo_not_similar_seen :
    ∀ (trends : List Trend) (seen : List String) (t : Trend),
      t ∈ dedupGo trends seen → ∀ s ∈ seen,
        ¬ ((4 : ℚ) / 5 < calculateSimilarity (normalizedKeyword t) s) := by
  intro trends
  induction trends with
  | nil =>
    intro seen t ht
    simp [dedupGo] at ht
  | cons hd rest ih =>
    intro seen t ht s hs
    simp only [dedupGo] at ht
    by_cases hc : seen.any
        (fun s => decide ((4 : ℚ) / 5 < calculateSimilarity (normalizedKeyword hd) s))
    · rw [if_pos hc] at ht
      exact ih seen t ht s hs
    · rw [if_neg hc] at ht
      rcases List.mem_cons.mp ht with rfl | ht'
      · intro hlt
        apply hc
        exact List.any_eq_true.mpr ⟨s, hs, decide_eq_true hlt⟩
      · exact ih (seen ++ [normalizedKeyword hd]) t ht' s (by simp [hs])

theorem dedupGo_sublist :
    ∀ (trends : List Trend) (seen : List String), (dedupGo trends seen).Sublist trends := by
  intro trends
  induction trends with
  | nil => intro seen; simp [dedupGo]
  | cons hd rest ih =>
    intro seen
    simp only [dedupGo]
    by_cases hc : seen.any
        (fun s => decide ((4 : ℚ) / 5 < calculateSimilarity (normalizedKeyword hd) s))
    · rw [if_pos hc]
      exact (ih seen).cons hd
    · rw [if_neg hc]
      exact (ih _).cons₂ hd

theorem dedupGo_pairwise (trends : List Trend) :
    ∀ seen, List.Pairwise
      (fun a b => calculateSimilarity (normalizedKeyword a) (normalizedKeyword b) ≤ 4 / 5)
      (dedupGo trends seen) := by
  induction trends with
  | nil => intro seen; simp [dedupGo]
  | cons hd rest ih =>
    intro seen
    simp only [dedupGo]
    by_cases hc : seen.any
        (fun s => decide ((4 : ℚ) / 5 < calculateSimilarity (normalizedKeyword hd) s))
    · rw [if_pos hc]
      exact ih seen
    · rw [if_neg hc]
      refine List.Pairwise.cons ?_ (ih _)
      intro u hu
      have hns := dedupGo_not_similar_seen rest (seen ++ [normalizedKeyword hd]) u hu
        (normalizedKeyword hd) (by simp)
      rw [calculateSimilarity_comm] at hns
      exact le_of_not_lt hns

/-- C1 (amended): the aggregation dedup keeps a subsequence of its input in
which no two retained candidates have normalized-keyword similarity greater
than `0.8`; consequently, when the earlier of two similar candidates is
retained, the later one is dropped.  (The original claim's stronger clause —
that of any similar pair the *earlier* candidate is always the retained one —
fails: see the counterexample, where the earlier candidate had itself been
dropped against a still earlier one.) -/
theorem deduplicateTrends_dedup_invariant (trends : List Trend) :
    (deduplicateTrends trends).Sublist trends ∧
    List.Pairwise
      (fun a b => calculateSimilarity (normalizedKeyword a) (normalizedKeyword b) ≤ 4 / 5)
      (deduplicateTrends trends) :=
  ⟨dedupGo_sublist trends [], dedupGo_pairwise trends []⟩

/-- First candidate of the C1 counterexample. -/
def cexC : Trend := ⟨"aaaaaa", "google-trends", "general", 0, 90⟩

/-- Second candidate of the C1 counterexample (similar to `cexC`). -/
def cexA : Trend := ⟨"aaaaab", "twitter", "general", 0, 85⟩

/-- Third candidate of the C1 counterexample (similar to `cexA` but not to
`cexC`). -/
def cexB : Trend := ⟨"aaaabb", "reddit", "general", 0, 70⟩

theorem cex_sim_AC : calculateSimilarity "aaaaab" "aaaaaa" = 5 / 6 := by
  have hl : levenshteinDistance "aaaaaa" "aaaaab" = 1 := by decide
  have h6 : ("aaaaab" : String).length = 6 := rfl
  have h6' : ("aaaaaa" : String).length = 6 := rfl
  simp only [calculateSimilarity, h6, h6', lt_irrefl, if_neg, if_false, hl]
  norm_num

theorem cex_sim_BC : calculateSimilarity "aaaabb" "aaaaaa" = 2 / 3 := by
  have hl : levenshteinDistance "aaaaaa" "aaaabb" = 2 := by decide
  have h6 : ("aaaabb" : String).length = 6 := rfl
  have h6' : ("aaaaaa" : String).length = 6 := rfl
  simp only [calculateSimilarity, h6, h6', lt_irrefl, if_neg, if_false, hl]
  norm_num

theorem cex_sim_BA : calculateSimilarity "aaaabb" "aaaaab" = 5 / 6 := by
  have hl : levenshteinDistance "aaaaab" "aaaabb" = 1 := by decide
  have h6 : ("aaaabb" : String).length = 6 := rfl
  have h6' : ("aaaaab" : String).length = 6 := rfl
  simp only [calculateSimilarity, h6, h6', lt_irrefl, if_neg, if_false, hl]
  norm_num

theorem cex_dedup_eval :
    deduplicateTrends [cexC, cexA, cexB] = [cexC, cexB] := by
  have hC : normalizedKeyword cexC = "aaaaaa" := by decide
  have hA : normalizedKeyword cexA = "aaaaab" := by decide
  have hB : normalizedKeyword cexB = "aaaabb" := by decide
  have d1 : decide ((4 : ℚ) / 5 < calculateSimilarity "aaaaab" "aaaaaa") = true := by
    apply decide_eq_true
    rw [cex_sim_AC]
    norm_num
  have d2 : decide ((4 : ℚ) / 5 < calculateSimilarity "aaaabb" "aaaaaa") = false := by
    apply decide_eq_false
    rw [cex_sim_BC]
    norm_num
  simp only [deduplicateTrends, dedupGo, hA, hB, hC, List.any_nil, List.any_cons,
    List.nil_append, d1, d2, Bool.false_or, Bool.or_false, if_false, if_true,
    Bool.false_eq_true, if_neg]

/-- C1 counterexample: in the input `[cexC, cexA, cexB]` the pair
`(cexA, cexB)` has similarity `5/6 > 0.8`, yet the *later* candidate `cexB`
is the one retained and the earlier `cexA` is dropped (it was deduplicated
against `cexC`), refuting the claim that of any two similar candidates the
one occurring earlier in input order is the one retained. -/
theorem deduplicateTrends_first_seen_counterexample :
    (4 : ℚ) / 5 < calculateSimilarity (normalizedKeyword cexA) (normalizedKeyword cexB) ∧
    cexA ∉ deduplicateTrends [cexC, cexA, cexB] ∧
    cexB ∈ deduplicateTrends [cexC, cexA, cexB] := by
  have hA : normalizedKeyword cexA = "aaaaab" := by decide
  have hB : normalizedKeyword cexB = "aaaabb" := by decide
  refine ⟨?_, ?_, ?_⟩
  · rw [hA, hB, calculateSimilarity_comm, cex_sim_BA]
    norm_num
  · rw [cex_dedup_eval]
    intro hmem
    rcases List.mem_cons.mp hmem with h | h
    · exact absurd (congrArg Trend.keyword h) (by decide)
    · rcases List.mem_cons.mp h with h' | h'
      · exact absurd (congrArg Trend.keyword h') (by decide)
      · simp at h'
  · rw [cex_dedup_eval]
    exact List.mem_cons.mpr (Or.inr (List.mem_cons.mpr (Or.inl rfl)))

/-! ### Aggregation: partial-failure tolerance and output shape -/

theorem adapterContribution_recoverEmpty (enabled : Bool)
    (result : Except String (List Trend)) :
    adapterContribution enabled (recoverEmpty result) = adapterContribution enabled result := by
  cases result <;> cases enabled <;> simp [adapterContribution, recoverEmpty]

theorem adapterContribution_error (enabled : Bool) (e : String) :
    adapterContribution enabled (Except.error e) = [] := by
  cases enabled <;> simp [adapterContribution]

/-- C2: `getAllTrends` never propagates an adapter failure.  For every
combination of enabled adapters and adapter outcomes it returns a value
(never an error); failed adapters behave exactly as if they had succeeded
with zero candidates, so the successful adapters' candidates still flow
through; and when every adapter fails the result is the empty sequence. -/
theorem getAllTrends_tolerates_adapter_failure
    (ig it ir : Bool) (g t r : Except String (List Trend))
    (e1 e2 e3 : String) (limit : Nat) :
    (∃ l, getAllTrends ig it ir g t r limit = Except.ok l) ∧
    getAllTrends ig it ir g t r limit =
      getAllTrends ig it ir (recoverEmpty g) (recoverEmpty t) (recoverEmpty r) limit ∧
    getAllTrends ig it ir (Except.error e1) (Except.error e2) (Except.error e3) limit =
      Except.ok [] := by
  refine ⟨⟨_, rfl⟩, ?_, ?_⟩
  · simp only [getAllTrends, adapterContribution_recoverEmpty]
  · simp only [getAllTrends, adapterContribution_error, List.append_nil,
      deduplicateTrends, dedupGo, List.insertionSort, List.take_nil]

/-- C8: for every combination of adapter results and every limit, the
sequence returned by `getAllTrends` is sorted in non-increasing order of
`trendScore` and contains at most `limit` elements. -/
theorem getAllTrends_sorted_and_bounded
    (ig it ir : Bool) (g t r : Except String (List Trend)) (limit : Nat) :
    ∃ l, getAllTrends ig it ir g t r limit = Except.ok l ∧
      List.Sorted (fun a b => b.trendScore ≤ a.trendScore) l ∧
      l.length ≤ limit := by
  refine ⟨_, rfl, ?_, ?_⟩
  · have hs : List.Sorted scoreGe
        (List.insertionSort scoreGe (deduplicateTrends
          (adapterContribution ig g ++ adapterContribution it t ++ adapterContribution ir r))) :=
      List.sorted_insertionSort scoreGe _
    exact List.Pairwise.sublist (List.take_sublist limit _) hs
  · rw [List.length_take]
    exact Nat.min_le_left _ _

/-! ### The social-trends (Twitter) adapter's rank-decay score -/

/-- C5 (amended): every candidate produced by the Twitter adapter carries a
1-based `position` at most 20 and a score of
`max(100 - 5 × (position - 1), 10)` — the rank decay starts at 100 for the
top-ranked candidate, not at 95 as the claim's `max(100 - 5 × position, 10)`
formula would give. -/
theorem fetchTwitterTrends_score (elements : List String) (t : Trend)
    (ht : t ∈ fetchTwitterTrends elements) :
    1 ≤ t.position ∧ t.position ≤ 20 ∧
    t.trendScore = max ((100 : ℚ) - 5 * ((t.position : ℚ) - 1)) 10 := by
  obtain ⟨p, _, hsome⟩ := List.mem_filterMap.mp ht
  by_cases h20 : p.1 < 20
  · rw [if_pos h20] at hsome
    by_cases hkw : jsTrim p.2 ≠ "" ∧ 2 < (jsTrim p.2).length
    · rw [if_pos hkw] at hsome
      injection hsome with h
      subst h
      refine ⟨Nat.le_add_left 1 p.1, show p.1 + 1 ≤ 20 by omega, ?_⟩
      show max ((100 : ℚ) - (p.1 : ℚ) * 5) 10 =
        max ((100 : ℚ) - 5 * (((p.1 + 1 : Nat) : ℚ) - 1)) 10
      have hcast : ((p.1 + 1 : Nat) : ℚ) - 1 = (p.1 : ℚ) := by
        push_cast
        ring
      rw [hcast, mul_comm]
    · rw [if_neg hkw] at hsome
      exact absurd hsome (by simp)
  · rw [if_neg h20] at hsome
    exact absurd hsome (by simp)

/-- Witness for C5 (amended) at a concrete input. -/
theorem fetchTwitterTrends_score_witness :
    ∃ t ∈ fetchTwitterTrends ["Bitcoin"],
      t.trendScore = max ((100 : ℚ) - 5 * ((t.position : ℚ) - 1)) 10 := by
  have hkw : jsTrim "Bitcoin" = "Bitcoin" := by decide
  have hmem : (⟨"Bitcoin", "twitter", "general", 1,
      max ((100 : ℚ) - ((0 : Nat) : ℚ) * 5) 10⟩ : Trend) ∈ fetchTwitterTrends ["Bitcoin"] := by
    apply List.mem_filterMap.mpr
    refine ⟨(0, "Bitcoin"), by simp [List.enum], ?_⟩
    rw [if_pos (by norm_num), hkw,
      if_pos (by exact ⟨by decide, by decide⟩)]
  exact ⟨_, hmem, (fetchTwitterTrends_score ["Bitcoin"] _ hmem).2.2⟩

/-- C5 counterexample: for the single scraped element `"Topic One"` the
produced candidate has rank position 1 but score `100`, while the claim's
formula `max(100 - 5 × rank_position, 10)` predicts `95`; the claim is false
at this input. -/
theorem fetchTwitterTrends_spec_score_counterexample :
    ¬ (∀ t ∈ fetchTwitterTrends ["Topic One"], t.trendScore = specTwitterScore t.position) := by
  intro hclaim
  have hkw : jsTrim "Topic One" = "Topic One" := by decide
  have hmem : (⟨"Topic One", "twitter", "general", 1,
      max ((100 : ℚ) - ((0 : Nat) : ℚ) * 5) 10⟩ : Trend) ∈ fetchTwitterTrends ["Topic One"] := by
    apply List.mem_filterMap.mpr
    refine ⟨(0, "Topic One"), by simp [List.enum], ?_⟩
    rw [if_pos (by norm_num), hkw,
      if_pos (by exact ⟨by decide, by decide⟩)]
  have hval := hclaim _ hmem
  have hL : max ((100 : ℚ) - ((0 : Nat) : ℚ) * 5) 10 = 100 := by
    push_cast
    rw [zero_mul, sub_zero]
    exact max_eq_left (by norm_num)
  have hR : specTwitterScore 1 = 95 := by
    simp only [specTwitterScore]
    push_cast
    rw [mul_one]
    norm_num
  rw [hL, hR] at hval
  norm_num at hval

/-! ### Slug generation -/

/-- C6 (code bug): `generateSlug` calls `.trim('-')`, but JavaScript's `trim`
ignores its argument and strips whitespace — of which none remains after the
earlier replacements — so leading and trailing hyphens survive.  At the title
`" hello"` the produced slug is `"-hello"`, which begins with a hyphen,
contradicting the specified trimming of leading/trailing hyphens. -/
theorem generateSlug_keeps_boundary_hyphens :
    generateSlug " hello" = "-hello" ∧
    (generateSlug " hello").toList.head? = some '-' ∧
    generateSlug "Hello,  World!" = "hello-world" := by decide

/-! ### Persistence: `createArticle` and its title regex

`createArticle` in `articleService.js` looks up an existing record with
`Article.findOne({ title: { $regex: new RegExp(articleData.title, 'i') } })`:
the raw title is compiled as a case-insensitive regular expression and matched
*unanchored* against stored titles.  The regex engine is a platform primitive;
it is modelled here for the fragment these titles exercise: patterns made of
literal characters and the `?` quantifier applied to the preceding literal. -/

/-- One atom of the modelled regex fragment: a literal character, or a
literal made optional by a following `?`. -/
inductive RAtom where
  | lit (c : Char)
  | opt (c : Char)
deriving DecidableEq, Repr

/-- Model of JS `new RegExp(pattern)` parsing, restricted to patterns whose
only metacharacter is `?` following a literal character. -/
def parsePattern : List Char → List RAtom
  | [] => []
  | [c] => [RAtom.lit c]
  | c :: d :: rest =>
    if d = '?' then RAtom.opt c :: parsePattern rest
    else RAtom.lit c :: parsePattern (d :: rest)

/-- Match a parsed pattern against a prefix of the text (greedy first, as the
JS engine backtracks; for a boolean result the order is immaterial). -/
def matchAtoms : List RAtom → List Char → Bool
  | [], _ => true
  | RAtom.lit _ :: _, [] => false
  | RAtom.lit c :: as, x :: xs => x == c && matchAtoms as xs
  | RAtom.opt c :: as, xs =>
    (match xs with
     | x :: xs2 => x == c && matchAtoms as xs2
     | [] => false) || matchAtoms as xs

/-- Model of `new RegExp(pattern, 'i').test(text)`: unanchored search, with
the `i` flag modelled by lowercasing both sides (ASCII). -/
def regexTest (pattern text : String) : Bool :=
  let atoms := parsePattern (jsToLowerCase pattern).toList
  ((jsToLowerCase text).toList.tails).any (fun suf => matchAtoms atoms suf)

/-- A persisted article record, reduced to the two fields the idempotence
claim turns on: the title and the slug, which `Article.js` declares
`unique: true` (the other schema fields and pre-save bookkeeping —
`lastModified`, read time, SEO defaults — do not affect this behaviour). -/
structure ArticleRecord where
  title : String
  slug : String
deriving DecidableEq, Repr

/-- Model of `article.save()` under the `Article.js` schema.  The pre-save
hook replaces the slug only when it is empty (`if (!this.slug)`),
substituting `slugify(title) + '-' + Date.now()`; that timestamped fallback
is passed in as `freshSlug` since its value depends on the clock.  The
`unique: true` index on `slug` makes an insert whose final slug is already
present fail with Mongo's duplicate-key error. -/
def saveArticle (store : List ArticleRecord) (a : ArticleRecord) (freshSlug : String) :
    Except String (ArticleRecord × List ArticleRecord) :=
  let saved : ArticleRecord := ⟨a.title, if a.slug = "" then freshSlug else a.slug⟩
  if store.any (fun r => r.slug == saved.slug) then
    Except.error "E11000 duplicate key error: slug"
  else
    Except.ok (saved, store ++ [saved])

/-- `createArticle` from `articleService.js`, at the persistence boundary:
`findOne` returns the first stored record whose title is matched by the
title-as-regex, in which case the existing record is returned and the store
is unchanged; otherwise the article is constructed and saved — and the
`catch` only logs and rethrows, so a failed `save()` propagates as an error.
On the batch path the saved record's slug is `generateSlug(title)`, supplied
by `parseGeneratedContent`. -/
def createArticle (store : List ArticleRecord) (articleData : ArticleRecord)
    (freshSlug : String) : Except String (ArticleRecord × List ArticleRecord) :=
  match store.find? (fun existing => regexTest articleData.title existing.title) with
  | some existing => Except.ok (existing, store)
  | none => saveArticle store articleData freshSlug

/-- C3 (code bug): the title `"What? A Guide"` compiles to a regex in which
`t?` makes the `t` optional, so `findOne` misses the identical stored title
and `createArticle` proceeds to `save()`.  The batch path derives the slug
deterministically from the title (`generateSlug "What? A Guide" =
"what-a-guide"`, non-empty, so the pre-save hook keeps it), so the second
run's insert trips the unique slug index and throws a duplicate-key error,
which `createArticle` rethrows — instead of returning the existing record as
the claim requires.  The store never gains a second copy (the slug index,
not the title check, prevents that).  For metacharacter-free titles such as
`"Hello World"` the lookup matches and the second run returns the existing
record with the store unchanged, as specified. -/
theorem createArticle_title_regex_bug :
    regexTest "What? A Guide" "What? A Guide" = false ∧
    generateSlug "What? A Guide" = "what-a-guide" ∧
    createArticle [⟨"What? A Guide", "what-a-guide"⟩]
        ⟨"What? A Guide", "what-a-guide"⟩ "what-a-guide-1700000000000" =
      Except.error "E11000 duplicate key error: slug" ∧
    createArticle [⟨"Hello World", "hello-world"⟩]
        ⟨"Hello World", "hello-world"⟩ "hello-world-1700000000000" =
      Except.ok (⟨"Hello World", "hello-world"⟩, [⟨"Hello World", "hello-world"⟩]) :=
  ⟨by decide, by decide, rfl, rfl⟩

/-! ### The batch-generation boundary (`POST /generate-articles`) -/

/-- Arguments of one `getAllTrends` source fan-out. -/
structure FanOutCall where
  includeGoogle : Bool
  includeTwitter : Bool
  includeReddit : Bool
  geo : String
  limit : Nat
deriving DecidableEq, Repr

/-- Candidate-sourcing prefix of `generateArticlesFromTrends`
(`articleService.js`, lines 19–54): the options object passed by callers may
carry a `trends` field, but the function never reads it — it always invokes
`this.trendService.getAllTrends` with `limit = maxArticles * 2` (and its own
defaults `includeGoogle = true`, `includeTwitter = true`,
`includeReddit = false`, `geo = 'US'` when the caller does not set them),
then filters by category and takes the top `maxArticles`.  The second
component records the fan-out calls performed. -/
def generateArticlesFromTrendsSelect (maxArticles : Nat) (categories : List String)
    (geo : String) (ig it ir : Bool) (trendsOption : List Trend)
    (fetch : FanOutCall → List Trend) : List Trend × List FanOutCall :=
  let _ := trendsOption
  let call : FanOutCall := ⟨ig, it, ir, geo, maxArticles * 2⟩
  let trends := fetch call
  let selected :=
    if trends.length = 0 then []
    else
      (if categories.length ≠ 0 then trends.filter (fun t => categories.contains t.category)
       else trends).take maxArticles
  (selected, [call])

/-- The `POST /generate-articles` handler (`routes/trends.js`, lines
249–275): reuse the module cache when `useCache` holds, the cache is
populated and its age is below the TTL; fetch fresh trends with
`limit = maxArticles * 3` when the cached list is empty; then call
`generateArticlesFromTrends` passing `trends.slice(0, maxArticles * 2)` as
the (ignored) `trends` option.  The second component records every source
fan-out performed during the request. -/
def generateArticlesHandler (maxArticles : Nat) (categories : List String) (useCache : Bool)
    (cacheData : Option (List Trend)) (cacheAge ttl : Nat)
    (fetch : FanOutCall → List Trend) : List Trend × List FanOutCall :=
  let cachedTrends :=
    if useCache then
      match cacheData with
      | some d => if cacheAge < ttl then d else []
      | none => []
    else []
  let fresh : List Trend × List FanOutCall :=
    if cachedTrends.length = 0 then
      let c : FanOutCall := ⟨true, true, false, "US", maxArticles * 3⟩
      (fetch c, [c])
    else (cachedTrends, [])
  let svc := generateArticlesFromTrendsSelect maxArticles categories "US" true true false
    (fresh.1.take (maxArticles * 2)) fetch
  (svc.1, fresh.2 ++ svc.2)

/-- C4 (code bug): every invocation of the batch-generation boundary —
including one with `useCache = true` and a fresh, populated cache — performs
the service's own source fan-out with `limit = maxArticles × 2`, because
`generateArticlesFromTrends` ignores the `trends` option the handler passes.
The claim's "reuses the cached candidates and performs no source fan-out"
therefore fails, and the `maxArticles × 3` fresh fetch, when it happens, is
followed by this second fan-out as well. -/
theorem generateArticlesHandler_always_fans_out
    (maxArticles : Nat) (categories : List String) (useCache : Bool)
    (cacheData : Option (List Trend)) (cacheAge ttl : Nat)
    (fetch : FanOutCall → List Trend) :
    (⟨true, true, false, "US", maxArticles * 2⟩ : FanOutCall) ∈
      (generateArticlesHandler maxArticles categories useCache cacheData cacheAge ttl fetch).2 := by
  simp [generateArticlesHandler, generateArticlesFromTrendsSelect]

/-! ### SEO metadata generation -/

/-- Article data consumed by the SEO stage (title and excerpt). -/
structure ArticleData where
  title : String
  excerpt : String
deriving DecidableEq, Repr

/-- Trend data consumed by the SEO stage (the source keyword). -/
structure TrendData where
  keyword : String
deriving DecidableEq, Repr

/-- Outcome of a successful `JSON.parse` of the backend's SEO reply: each of
the five expected fields may be absent (or `null`). -/
structure SEOPartial where
  metaTitle : Option String
  metaDescription : Option String
  keywords : Option (List String)
  ogTitle : Option String
  ogDescription : Option String

/-- The assembled SEO metadata record; all five fields are always present. -/
structure SEOData where
  metaTitle : String
  metaDescription : String
  keywords : List String
  ogTitle : String
  ogDescription : String
deriving DecidableEq, Repr

/-- JS `value || fallback` for string-valued JSON fields: an absent (or
`null`) field and the empty string are falsy and select the fallback. -/
def jsOrElse (v : Option String) (d : String) : String :=
  match v with
  | some s => if s = "" then d else s
  | none => d

/-- JS `value || fallback` for the `keywords` field: an absent field selects
the fallback, while any present array (even an empty one) is truthy. -/
def jsOrElseList (v : Option (List String)) (d : List String) : List String :=
  match v with
  | some l => l
  | none => d

/-- Unanchored substring test, modelling JS `String.prototype.includes`. -/
def containsSub (hay needle : String) : Bool :=
  (hay.toList.tails).any (fun suf => needle.toList.isPrefixOf suf)

/-- One iteration of the line scan in `parseSEOContent`
(`openaiService.js`): the lowercased trimmed line selects which field to
overwrite, and the value is the text after the first `:`, trimmed, kept only
when non-empty. -/
def seoLineUpdate (d : SEOData) (line : String) : SEOData :=
  let trimmedLine := jsToLowerCase (jsTrim line)
  let afterColon := ((jsSplit line ":").get? 1).map jsTrim
  if containsSub trimmedLine "meta title" || containsSub trimmedLine "title:" then
    match afterColon with
    | some t => if t = "" then d else ⟨t, d.metaDescription, d.keywords, d.ogTitle, d.ogDescription⟩
    | none => d
  else if containsSub trimmedLine "meta description" || containsSub trimmedLine "description:" then
    match afterColon with
    | some t =>
      if t = "" then d else ⟨d.metaTitle, t, d.keywords, d.ogTitle, d.ogDescription⟩
    | none => d
  else if containsSub trimmedLine "keywords" then
    match afterColon with
    | some t =>
      if t = "" then d
      else ⟨d.metaTitle, d.metaDescription, (jsSplit t ",").map jsTrim, d.ogTitle, d.ogDescription⟩
    | none => d
  else d

/-- `parseSEOContent` from `openaiService.js`: start from the defaults
(title/excerpt/keyword) and scan the reply line by line for labelled fields;
the Open Graph fields are never overwritten. -/
def parseSEOContent (content : String) (article : ArticleData) (trend : TrendData) : SEOData :=
  (jsSplit content "\n").foldl seoLineUpdate
    ⟨article.title, article.excerpt, [trend.keyword], article.title, article.excerpt⟩

/-- `generateSEOMetadata` from `openaiService.js`.  The generative-backend
call is passed in as an `Except` (its `catch` branch returns the full default
record), and `JSON.parse` — a platform primitive — is abstracted as an
arbitrary parser `jsonParse`, `none` standing for a parse failure (which the
inner `catch` routes to `parseSEOContent`).  The `Except` result mirrors the
JS control flow: an uncaught exception would be `Except.error`. -/
def generateSEOMetadata (article : ArticleData) (trend : TrendData)
    (backend : Except String String) (jsonParse : String → Option SEOPartial) :
    Except String SEOData :=
  match backend with
  | Except.error _ =>
    Except.ok ⟨article.title, article.excerpt, [trend.keyword], article.title, article.excerpt⟩
  | Except.ok seoContent =>
    match jsonParse seoContent with
    | some seoData =>
      Except.ok ⟨jsOrElse seoData.metaTitle article.title,
        jsOrElse seoData.metaDescription article.excerpt,
        jsOrElseList seoData.keywords [trend.keyword],
        jsOrElse seoData.ogTitle article.title,
        jsOrElse seoData.ogDescription article.excerpt⟩
    | none => Except.ok (parseSEOContent seoContent article trend)

/-- C7: the SEO-metadata stage never raises — for every article/trend input,
backend outcome and JSON-parse behaviour it returns a record with all five
fields — and the fallbacks hold: a failed backend call yields the full
title/excerpt/keyword default record, and on the JSON path each field for
which parsing yields no value defaults to the article's title, the article's
excerpt, or the source keyword respectively. -/
theorem generateSEOMetadata_total_with_defaults (article : ArticleData) (trend : TrendData)
    (backend : Except String String) (jsonParse : String → Option SEOPartial) :
    (∃ d, generateSEOMetadata article trend backend jsonParse = Except.ok d) ∧
    (∀ e, generateSEOMetadata article trend (Except.error e) jsonParse =
      Except.ok ⟨article.title, article.excerpt, [trend.keyword],
        article.title, article.excerpt⟩) ∧
    (∀ s p d, backend = Except.ok s → jsonParse s = some p →
      generateSEOMetadata article trend backend jsonParse = Except.ok d →
      (p.metaTitle = none → d.metaTitle = article.title) ∧
      (p.metaDescription = none → d.metaDescription = article.excerpt) ∧
      (p.keywords = none → d.keywords = [trend.keyword]) ∧
      (p.ogTitle = none → d.ogTitle = article.title) ∧
      (p.ogDescription = none → d.ogDescription = article.excerpt)) := by
  refine ⟨?_, fun e => rfl, ?_⟩
  · cases backend with
    | error e => exact ⟨_, rfl⟩
    | ok s =>
      cases h : jsonParse s with
      | some p =>
        refine ⟨⟨jsOrElse p.metaTitle article.title, jsOrElse p.metaDescription article.excerpt,
          jsOrElseList p.keywords [trend.keyword], jsOrElse p.ogTitle article.title,
          jsOrElse p.ogDescription article.excerpt⟩, ?_⟩
        simp [generateSEOMetadata, h]
      | none =>
        refine ⟨parseSEOContent s article trend, ?_⟩
        simp [generateSEOMetadata, h]
  · intro s p d hb hp hd
    subst hb
    rw [generateSEOMetadata, hp] at hd
    injection hd with hd'
    subst hd'
    refine ⟨?_, ?_, ?_, ?_, ?_⟩ <;> intro hnone <;> simp [hnone, jsOrElse, jsOrElseList]

/-- Witness for C7 at concrete inputs: the backend fails and the parser never
succeeds; the result is the full default record. -/
theorem generateSEOMetadata_total_with_defaults_witness :
    generateSEOMetadata ⟨"T", "E"⟩ ⟨"K"⟩ (Except.error "boom") (fun _ => none) =
      Except.ok ⟨"T", "E", ["K"], "T", "E"⟩ :=
  (generateSEOMetadata_total_with_defaults ⟨"T", "E"⟩ ⟨"K"⟩
    (Except.error "boom") (fun _ => none)).2.1 "boom"

/-! ### Parsing the generated article -/

/-- The structured data returned by `parseGeneratedContent`. -/
structure ParsedArticle where
  title : String
  excerpt : String
  content : String
  tags : List String
  slug : String
deriving DecidableEq, Repr

/-- Mutable state of the line loop in `parseGeneratedContent`. -/
structure ParseState where
  title : String
  excerpt : String
  tags : List String
  content : String
  currentSection : String
deriving DecidableEq, Repr

/-- One iteration of the line loop in `parseGeneratedContent`
(`openaiService.js`): section markers `TITLE:`, `EXCERPT:`, `TAGS:`,
`CONTENT:` are recognised on the trimmed line (the marker text is removed
with `replace(marker, '')`, which under the `startsWith` guard strips the
leading marker), and non-blank lines inside the `content` section are
appended verbatim plus a newline. -/
def processLine (st : ParseState) (line : String) : ParseState :=
  let trimmedLine := jsTrim line
  if jsStartsWith trimmedLine "TITLE:" then
    ⟨jsTrim (jsDrop trimmedLine 6), st.excerpt, st.tags, st.content, "title"⟩
  else if jsStartsWith trimmedLine "EXCERPT:" then
    ⟨st.title, jsTrim (jsDrop trimmedLine 8), st.tags, st.content, "excerpt"⟩
  else if jsStartsWith trimmedLine "TAGS:" then
    ⟨st.title, st.excerpt,
      (jsSplit (jsTrim (jsDrop trimmedLine 5)) ",").map (fun tag => jsToLowerCase (jsTrim tag)),
      st.content, "tags"⟩
  else if jsStartsWith trimmedLine "CONTENT:" then
    ⟨st.title, st.excerpt, st.tags, st.content, "content"⟩
  else if st.currentSection = "content" ∧ trimmedLine ≠ "" then
    ⟨st.title, st.excerpt, st.tags, st.content ++ line ++ "\n", st.currentSection⟩
  else st

/-- A line's `replace(/^#+\s*/, '')`: strip leading hashes and the following
whitespace (the regex only matches when the line starts with a hash). -/
def stripLeadingHashes (l : String) : String :=
  if jsStartsWith l "#" then
    ((l.toList.dropWhile (fun c => c = '#')).dropWhile isJsWhitespace).asString
  else l

/-- Result record of `fallbackParsing`. -/
structure FallbackData where
  title : String
  excerpt : String
  content : String
  tags : List String
deriving DecidableEq, Repr

/-- `fallbackParsing` from `openaiService.js`: derive a title from the first
heading or substantial (trimmed length > 20) line, an excerpt from the first
non-heading paragraph truncated to 200 characters plus an ellipsis, and tags
from the lowercased keyword plus its words longer than 3 characters,
deduplicated in insertion order. -/
def fallbackParsing (content : String) (keyword : String) : FallbackData :=
  let lines := (jsSplit content "\n").filter (fun l => jsTrim l ≠ "")
  let title :=
    match lines.find? (fun l => jsStartsWith l "#" || decide (20 < (jsTrim l).length)) with
    | some l => jsTrim (stripLeadingHashes l)
    | none => ""
  let paragraphs :=
    (jsSplit content "\n\n").filter (fun p => jsTrim p ≠ "" ∧ ¬ jsStartsWith p "#")
  let excerpt :=
    match paragraphs.head? with
    | some p => (p.toList.take 200).asString ++ "..."
    | none => ""
  let kwLower := jsToLowerCase keyword
  let tags := setDedup (kwLower :: (jsSplit kwLower " ").filter (fun w => 3 < w.length))
  ⟨if title = "" then keyword ++ ": Latest Trends and Insights" else title,
    if excerpt = "" then
      "Discover the latest insights about " ++ keyword ++ " and its growing significance."
    else excerpt,
    content, tags⟩

/-- `parseGeneratedContent` from `openaiService.js`: run the marker-based
line loop; when any of title/excerpt/content is missing afterwards, fill the
missing pieces (and empty tags) from `fallbackParsing`; then apply the final
keyword-derived defaults and compute the slug. -/
def parseGeneratedContent (content : String) (trendKeyword : String) : ParsedArticle :=
  let st := (jsSplit content "\n").foldl processLine ⟨"", "", [], "", ""⟩
  let useFb := st.title = "" ∨ st.excerpt = "" ∨ st.content = ""
  let fb := fallbackParsing content trendKeyword
  let title := if useFb then (if st.title = "" then fb.title else st.title) else st.title
  let excerpt :=
    if useFb then (if st.excerpt = "" then fb.excerpt else st.excerpt) else st.excerpt
  let articleContent :=
    if useFb then (if st.content = "" then fb.content else st.content) else st.content
  let tags := if useFb then (if st.tags.length = 0 then fb.tags else st.tags) else st.tags
  ⟨if title = "" then "Understanding " ++ trendKeyword ++ ": A Comprehensive Guide" else title,
    if excerpt = "" then
      "Explore the trending topic of " ++ trendKeyword ++
        " and discover its impact and significance."
    else excerpt,
    if jsTrim articleContent = "" then content else jsTrim articleContent,
    if tags.length = 0 then [jsToLowerCase trendKeyword] else tags,
    generateSlug (if title = "" then trendKeyword else title)⟩

theorem processLine_tags_of_no_tags_marker (st : ParseState) (line : String)
    (h : jsStartsWith (jsTrim line) "TAGS:" = false) :
    (processLine st line).tags = st.tags := by
  simp only [processLine, h]
  by_cases h1 : jsStartsWith (jsTrim line) "TITLE:"
  · simp [h1]
  · by_cases h2 : jsStartsWith (jsTrim line) "EXCERPT:"
    · simp [h1, h2]
    · by_cases h3 : jsStartsWith (jsTrim line) "CONTENT:"
      · simp [h1, h2, h3]
      · by_cases h4 : st.currentSection = "content" ∧ jsTrim line ≠ ""
        · simp [h1, h2, h3, h4]
        · simp [h1, h2, h3, h4]

theorem foldl_processLine_tags (lines : List String) :
    ∀ st : ParseState, (∀ l ∈ lines, jsStartsWith (jsTrim l) "TAGS:" = false) →
      (lines.foldl processLine st).tags = st.tags := by
  induction lines with
  | nil => intro st _; rfl
  | cons l rest ih =>
    intro st h
    rw [List.foldl_cons]
    rw [ih (processLine st l) (fun x hx => h x (List.mem_cons_of_mem l hx))]
    exact processLine_tags_of_no_tags_marker st l (h l (List.mem_cons_self l rest))

theorem fallbackParsing_tags (content keyword : String) :
    (fallbackParsing content keyword).tags =
      jsToLowerCase keyword ::
        setDedupGo ((jsSplit (jsToLowerCase keyword) " ").filter (fun w => 3 < w.length))
          [jsToLowerCase keyword] := by
  simp only [fallbackParsing, setDedup, setDedupGo]
  rw [if_neg (by simp), List.nil_append]

/-- C9: when no line of the backend's response carries a `TAGS:` marker,
`parseGeneratedContent` still returns a non-empty tags list that contains the
lowercased topic keyword; and on the full fallback path (title, excerpt or
content also missing from the marker parse) the tags are exactly the
lowercased keyword followed by its words longer than 3 characters,
deduplicated. -/
theorem parseGeneratedContent_tags_without_marker (content trendKeyword : String)
    (h : ∀ l ∈ jsSplit content "\n", jsStartsWith (jsTrim l) "TAGS:" = false) :
    (parseGeneratedContent content trendKeyword).tags ≠ [] ∧
    jsToLowerCase trendKeyword ∈ (parseGeneratedContent content trendKeyword).tags ∧
    (((jsSplit content "\n").foldl processLine ⟨"", "", [], "", ""⟩).title = "" ∨
      ((jsSplit content "\n").foldl processLine ⟨"", "", [], "", ""⟩).excerpt = "" ∨
      ((jsSplit content "\n").foldl processLine ⟨"", "", [], "", ""⟩).content = "" →
      (parseGeneratedContent content trendKeyword).tags =
        jsToLowerCase trendKeyword ::
          setDedupGo ((jsSplit (jsToLowerCase trendKeyword) " ").filter (fun w => 3 < w.length))
            [jsToLowerCase trendKeyword]) := by
  have htags : ((jsSplit content "\n").foldl processLine ⟨"", "", [], "", ""⟩).tags = [] :=
    foldl_processLine_tags (jsSplit content "\n") ⟨"", "", [], "", ""⟩ h
  by_cases hfb : ((jsSplit content "\n").foldl processLine ⟨"", "", [], "", ""⟩).title = "" ∨
      ((jsSplit content "\n").foldl processLine ⟨"", "", [], "", ""⟩).excerpt = "" ∨
      ((jsSplit content "\n").foldl processLine ⟨"", "", [], "", ""⟩).content = ""
  · have h1 : (parseGeneratedContent content trendKeyword).tags =
        jsToLowerCase trendKeyword ::
          setDedupGo ((jsSplit (jsToLowerCase trendKeyword) " ").filter (fun w => 3 < w.length))
            [jsToLowerCase trendKeyword] := by
      simp only [parseGeneratedContent]
      rw [htags, if_pos hfb, if_pos (by rfl : ([] : List String).length = 0),
        fallbackParsing_tags]
      rw [if_neg (by simp)]
    exact ⟨h1 ▸ List.cons_ne_nil _ _, h1 ▸ List.mem_cons_self _ _, fun _ => h1⟩
  · have h1 : (parseGeneratedContent content trendKeyword).tags =
        [jsToLowerCase trendKeyword] := by
      simp only [parseGeneratedContent]
      rw [htags, if_neg hfb, if_pos (by rfl : ([] : List String).length = 0)]
    refine ⟨h1 ▸ List.cons_ne_nil _ _, h1 ▸ List.mem_cons_self _ _,
      fun hcontra => absurd hcontra hfb⟩

/-- Witness for C9 at a concrete input: a marker-free response for the
keyword `"Artificial Intelligence"`. -/
theorem parseGeneratedContent_tags_without_marker_witness :
    "artificial intelligence" ∈
      (parseGeneratedContent "Some plain response." "Artificial Intelligence").tags := by
  have h := parseGeneratedContent_tags_without_marker "Some plain response."
    "Artificial Intelligence" (by decide)
  have hl : jsToLowerCase "Artificial Intelligence" = "artificial intelligence" := by decide
  rw [hl] at h
  exact h.2.1

end TrendWise
